import Mathlib

/-!
Verification development for the ImageSearch repository (Go).

Modelling conventions:

* `float32` arithmetic is modelled as exact rational arithmetic (`ℚ`).
  Every distance the code manipulates is a nonnegative float and the code
  only ever compares distances and reports them; since `Real.sqrt` is
  strictly monotone on nonnegatives, we represent each distance by its
  square (an exactly computable rational) and a bridging lemma relates the
  squared representation to the real Euclidean metric.  `math.MaxFloat32`
  (the value `calculateEuclideanDistance` returns on a length mismatch,
  `2^128 - 2^104`) is represented by its square as well, so every
  comparison performed by the code is preserved verbatim.
* `uuid.UUID` values, opaque display strings and timestamps are modelled
  as naturals; on-disk paths are modelled as (fresh-id, format) pairs.
* JSON (de)serialization of an embedding vector (`json.Marshal` /
  `json.Unmarshal`) is modelled by a `Blob` type: a well-formed blob
  carries the vector, a corrupt blob fails to deserialize.
* `sort.Slice` is the Go standard library's pattern-defeating quicksort
  (`pdqsort`, Go ≥ 1.19), which is deterministic but not stable.  It is
  embedded verbatim below (`insertionSort`, `heapSort`, `partition`,
  `partitionEqual`, `partlyInsertionSort` (Go: partial insertion sort),
  `breakPatterns`, `choosePivot`, `pdqsortRec`) over `List` states, with
  an explicit fuel parameter making the recursion structural; the fuel
  bounds chosen at each call site strictly dominate the number of
  iterations the Go loops can perform, so the embedding computes the same
  result as the library code.
* Go runtime panics (in particular the nil-pointer dereference reachable
  in `SearchSimilarImages`) are modelled by `Option.none`.
-/

/-- Image formats as classified by Go's `image.Decode` registration names;
`other` stands for any registered format besides jpeg / png. -/
inductive GoFmt where
  | jpeg
  | png
  | other
deriving DecidableEq, Repr, Inhabited

/-- On-disk artifact path: `filepath.Join(imageDir, fmt.Sprintf("%s.%s", uuid, ext))`
modelled as the (fresh uuid, extension) pair; the constant `imageDir` prefix
carries no information. -/
abbrev FPath := Nat × GoFmt

/-- Model of `model.Image` (src/unnamed/part_000): the gorm Image record. -/
structure ImageRow where
  id : Nat
  fileName : Nat
  filePath : FPath
  extension : GoFmt
  width : Nat
  height : Nat
  size : Nat
  createdAt : Nat
  updatedAt : Nat
deriving DecidableEq, Repr, Inhabited

/-- Serialized embedding blob: `json.Marshal` of a `[]float32` produces a
well-formed blob; a corrupt blob is one `json.Unmarshal` rejects. -/
inductive Blob where
  | wellFormed (v : List ℚ)
  | corrupt
deriving DecidableEq, Repr, Inhabited

/-- Model of `json.Unmarshal` on an embedding blob. -/
def deserializeBlob : Blob → Option (List ℚ)
  | .wellFormed v => some v
  | .corrupt => none

/-- Model of `model.ImageEmbedding` as stored (src/unnamed/part_002,
`TempEmbedding`): the vector is kept as an opaque blob column. -/
structure EmbeddingRow where
  id : Nat
  imageID : Nat
  blob : Blob
  createdAt : Nat
  updatedAt : Nat
deriving DecidableEq, Repr, Inhabited

/-- The persisted record collection: the `images` and `image_embeddings`
tables, each in insertion (rowid) order. -/
structure Db where
  images : List ImageRow
  embeddings : List EmbeddingRow
deriving DecidableEq, Repr, Inhabited

/-- The square of `math.MaxFloat32 = 2^128 - 2^104`, the representation of
the sentinel distance `calculateEuclideanDistance` returns on a length
mismatch (squared-distance representation, see the file header). -/
def maxFloat32Sq : ℚ := ((2 : ℚ) ^ 128 - 2 ^ 104) ^ 2

/-- Model of `calculateEuclideanDistance` (src/unnamed/part_002 lines
221-233) in the squared-distance representation: on a length mismatch the
code returns `float32(math.MaxFloat32)`; otherwise it returns
`sqrt(Σ (v1ᵢ - v2ᵢ)²)`.  Both are represented by their squares. -/
def calculateEuclideanDistance (v1 v2 : List ℚ) : ℚ :=
  if v1.length ≠ v2.length then
    maxFloat32Sq
  else
    ((v1.zip v2).map (fun p => (p.1 - p.2) * (p.1 - p.2))).sum

/-- The real-valued Euclidean metric `sqrt(Σ (v1ᵢ - v2ᵢ)²)` of the spec
(with the code's `MaxFloat32` sentinel on a length mismatch), used to
relate the squared representation to actual distances. -/
noncomputable def euclideanDistR (v1 v2 : List ℚ) : ℝ :=
  if v1.length ≠ v2.length then
    ((2 : ℝ) ^ 128 - 2 ^ 104)
  else
    Real.sqrt (((v1.zip v2).map (fun p => ((p.1 - p.2) * (p.1 - p.2) : ℚ))).sum : ℚ)

section GoSort

variable {α : Type} [Inhabited α]

/-- Element read `data[i]` used by the sort's `Less`/`Swap` closures. -/
def aget (l : List α) (i : Nat) : α := l.getD i default

/-- `data.Swap(i, j)`: exchange two positions of the underlying slice. -/
def aswap (l : List α) (i j : Nat) : List α :=
  if i < l.length ∧ j < l.length then
    (l.set i (l.getD j default)).set j (l.getD i default)
  else l

/-- Inner loop of Go `insertionSort`: shift `l[j]` left while it is less
than its predecessor and `j > a`. -/
def insertInner (less : α → α → Bool) : Nat → List α → Nat → Nat → List α
  | 0, l, _, _ => l
  | fuel + 1, l, a, j =>
    if a < j ∧ less (aget l j) (aget l (j - 1)) then
      insertInner less fuel (aswap l j (j - 1)) a (j - 1)
    else l

/-- Outer loop of Go `insertionSort` over `i = a+1 .. b-1`. -/
def insertOuter (less : α → α → Bool) : Nat → List α → Nat → Nat → Nat → List α
  | 0, l, _, _, _ => l
  | fuel + 1, l, a, i, b =>
    if i < b then
      insertOuter less fuel (insertInner less i l a i) a (i + 1) b
    else l

/-- Go `insertionSort(data, a, b)`: sorts `data[a:b]` (stable). -/
def insertionSort (less : α → α → Bool) (l : List α) (a b : Nat) : List α :=
  insertOuter less b l a (a + 1) b

/-- Go `siftDown(data, lo, hi, first)`: heap sift-down used by `heapSort`. -/
def siftDown (less : α → α → Bool) : Nat → List α → Nat → Nat → Nat → List α
  | 0, l, _, _, _ => l
  | fuel + 1, l, root, hi, first =>
    let child := 2 * root + 1
    if child ≥ hi then l
    else
      let child := if child + 1 < hi ∧ less (aget l (first + child)) (aget l (first + child + 1)) then child + 1 else child
      if ¬ less (aget l (first + root)) (aget l (first + child)) then l
      else siftDown less fuel (aswap l (first + root) (first + child)) child hi first

/-- Build phase of Go `heapSort`: `for i := (hi-1)/2; i >= 0; i--`; the
counter `k` runs the body at roots `k-1, k-2, …, 0`. -/
def heapBuild (less : α → α → Bool) : Nat → List α → Nat → Nat → List α
  | 0, l, _, _ => l
  | k + 1, l, hi, first => heapBuild less k (siftDown less hi l k hi first) hi first

/-- Pop phase of Go `heapSort`: `for i := hi - 1; i >= 0; i--`. -/
def heapPop (less : α → α → Bool) : Nat → List α → Nat → List α
  | 0, l, _ => l
  | k + 1, l, first => heapPop less k (siftDown less (k + 1) (aswap l first (first + k)) 0 k first) first

/-- Go `heapSort(data, a, b)`. -/
def heapSort (less : α → α → Bool) (l : List α) (a b : Nat) : List α :=
  let hi := b - a
  heapPop less hi (heapBuild less ((hi - 1) / 2 + 1) l hi a) a

/-- Go `reverseRange(data, a, b)` loop. -/
def revLoop : Nat → List α → Nat → Nat → List α
  | 0, l, _, _ => l
  | fuel + 1, l, i, j => if i < j then revLoop fuel (aswap l i j) (i + 1) (j - 1) else l

/-- Go `reverseRange(data, a, b)`. -/
def reverseRange (l : List α) (a b : Nat) : List α := revLoop b l a (b - 1)

/-- One step of Go's `xorshift` PRNG over `uint64`. -/
def xorshiftNext (r : Nat) : Nat :=
  let r := (r ^^^ (r <<< 13)) % 2 ^ 64
  let r := (r ^^^ (r >>> 7)) % 2 ^ 64
  (r ^^^ (r <<< 17)) % 2 ^ 64

/-- Go `bits.Len(uint(n))`: the number of bits needed to represent `n`. -/
def bitsLen (n : Nat) : Nat := if n = 0 then 0 else Nat.log2 n + 1

/-- Go sort's `nextPowerOfTwo(length) = 1 << bits.Len(uint(length))`. -/
def nextPowerOfTwo (length : Nat) : Nat := 1 <<< bitsLen length

/-- One iteration `i` of the `breakPatterns` swap loop. -/
def breakPatternsStep (l : List α) (a length modulus idx i rnd : Nat) : List α × Nat :=
  let rnd := xorshiftNext rnd
  let other := rnd &&& (modulus - 1)
  let other := if other ≥ length then other - length else other
  (aswap l (idx - 1 + i) (a + other), rnd)

/-- Go `breakPatterns(data, a, b)`: three pseudo-random swaps around the
midpoint, PRNG seeded with the interval length. -/
def breakPatterns (l : List α) (a b : Nat) : List α :=
  let length := b - a
  if length ≥ 8 then
    let modulus := nextPowerOfTwo length
    let idx := a + length / 4 * 2 - 1
    let s0 := breakPatternsStep l a length modulus idx 0 length
    let s1 := breakPatternsStep s0.1 a length modulus idx 1 s0.2
    (breakPatternsStep s1.1 a length modulus idx 2 s1.2).1
  else l

/-- Hints returned by Go sort's `choosePivot`. -/
inductive SHint where
  | increasing
  | decreasing
  | unknown
deriving DecidableEq, Repr, Inhabited

/-- Go sort's `order2`: order two indices by the values they point to,
counting comparison-swaps. -/
def order2 (less : α → α → Bool) (l : List α) (a b swaps : Nat) : (Nat × Nat) × Nat :=
  if less (aget l b) (aget l a) then ((b, a), swaps + 1) else ((a, b), swaps)

/-- Go sort's `median`: index of the median of three positions. -/
def medianIdx (less : α → α → Bool) (l : List α) (a b c swaps : Nat) : Nat × Nat :=
  let ((a, b), swaps) := order2 less l a b swaps
  let ((b, _), swaps) := order2 less l b c swaps
  let ((_, b), swaps) := order2 less l a b swaps
  (b, swaps)

/-- Go sort's `medianAdjacent`: median of `data[a-1]`, `data[a]`, `data[a+1]`. -/
def medianAdjacent (less : α → α → Bool) (l : List α) (a swaps : Nat) : Nat × Nat :=
  medianIdx less l (a - 1) a (a + 1) swaps

/-- Go sort's `choosePivot(data, a, b)`: static pivot below 8 elements,
median-of-three below 50, Tukey ninther above. -/
def choosePivot (less : α → α → Bool) (l : List α) (a b : Nat) : Nat × SHint :=
  let len := b - a
  let i := a + len / 4 * 1
  let j := a + len / 4 * 2
  let k := a + len / 4 * 3
  let (j, swaps) :=
    if len ≥ 8 then
      if len ≥ 50 then
        let (i, s) := medianAdjacent less l i 0
        let (j, s) := medianAdjacent less l j s
        let (k, s) := medianAdjacent less l k s
        medianIdx less l i j k s
      else
        medianIdx less l i j k 0
    else (j, 0)
  if swaps = 0 then (j, SHint.increasing)
  else if swaps = 12 then (j, SHint.decreasing)
  else (j, SHint.unknown)

/-- Scan loop `for i <= j && data.Less(i, a) { i++ }` of Go `partition`. -/
def partUp (less : α → α → Bool) : Nat → List α → Nat → Nat → Nat → Nat
  | 0, _, _, i, _ => i
  | fuel + 1, l, a, i, j =>
    if i ≤ j ∧ less (aget l i) (aget l a) then partUp less fuel l a (i + 1) j else i

/-- Scan loop `for i <= j && !data.Less(j, a) { j-- }` of Go `partition`. -/
def partDown (less : α → α → Bool) : Nat → List α → Nat → Nat → Nat → Nat
  | 0, _, _, _, j => j
  | fuel + 1, l, a, i, j =>
    if i ≤ j ∧ ¬ less (aget l j) (aget l a) then partDown less fuel l a i (j - 1) else j

/-- Main swap loop of Go `partition`; returns the slice and the final `j`. -/
def partitionLoop (less : α → α → Bool) : Nat → List α → Nat → Nat → Nat → List α × Nat
  | 0, l, _, _, j => (l, j)
  | fuel + 1, l, a, i, j =>
    let i := partUp less (j + 1) l a i j
    let j := partDown less (j + 1) l a i j
    if i > j then (l, j)
    else partitionLoop less fuel (aswap l i j) a (i + 1) (j - 1)

/-- Go `partition(data, a, b, pivot)`: Hoare partition around the pivot
moved to position `a`; returns (slice, newpivot, alreadyPartitioned). -/
def partitionGo (less : α → α → Bool) (l : List α) (a b pivot : Nat) : List α × Nat × Bool :=
  let l := aswap l a pivot
  let i := partUp less b l a (a + 1) (b - 1)
  let j := partDown less b l a i (b - 1)
  if i > j then (aswap l j a, j, true)
  else
    let pl := partitionLoop less b (aswap l i j) a (i + 1) (j - 1)
    (aswap pl.1 pl.2 a, pl.2, false)

/-- Scan loop `for i <= j && !data.Less(a, i) { i++ }` of Go `partitionEqual`. -/
def eqUp (less : α → α → Bool) : Nat → List α → Nat → Nat → Nat → Nat
  | 0, _, _, i, _ => i
  | fuel + 1, l, a, i, j =>
    if i ≤ j ∧ ¬ less (aget l a) (aget l i) then eqUp less fuel l a (i + 1) j else i

/-- Scan loop `for i <= j && data.Less(a, j) { j-- }` of Go `partitionEqual`. -/
def eqDown (less : α → α → Bool) : Nat → List α → Nat → Nat → Nat → Nat
  | 0, _, _, _, j => j
  | fuel + 1, l, a, i, j =>
    if i ≤ j ∧ less (aget l a) (aget l j) then eqDown less fuel l a i (j - 1) else j

/-- Swap loop of Go `partitionEqual`; returns the slice and the final `i`. -/
def partitionEqualLoop (less : α → α → Bool) : Nat → List α → Nat → Nat → Nat → List α × Nat
  | 0, l, _, i, _ => (l, i)
  | fuel + 1, l, a, i, j =>
    let i := eqUp less (j + 1) l a i j
    let j := eqDown less (j + 1) l a i j
    if i > j then (l, i)
    else partitionEqualLoop less fuel (aswap l i j) a (i + 1) (j - 1)

/-- Go `partitionEqual(data, a, b, pivot)`: moves elements equal to the
pivot to the front; returns (slice, newpivot). -/
def partitionEqualGo (less : α → α → Bool) (l : List α) (a b pivot : Nat) : List α × Nat :=
  let l := aswap l a pivot
  partitionEqualLoop less b l a (a + 1) (b - 1)

/-- Scan `for i < b && !data.Less(i, i-1) { i++ }` of Go's partial
insertion sort. -/
def skipSorted (less : α → α → Bool) : Nat → List α → Nat → Nat → Nat
  | 0, _, _, i => i
  | fuel + 1, l, b, i =>
    if i < b ∧ ¬ less (aget l i) (aget l (i - 1)) then skipSorted less fuel l b (i + 1) else i

/-- Left-shift loop (`for j := i - 1; j >= 1; j--`) of Go's partial
insertion sort. -/
def shiftLeftLoop (less : α → α → Bool) : Nat → List α → Nat → List α
  | 0, l, _ => l
  | fuel + 1, l, j =>
    if j ≥ 1 ∧ less (aget l j) (aget l (j - 1)) then shiftLeftLoop less fuel (aswap l j (j - 1)) (j - 1) else l

/-- Right-shift loop (`for j := i + 1; j < b; j++`) of Go's partial
insertion sort. -/
def shiftRightLoop (less : α → α → Bool) : Nat → List α → Nat → Nat → List α
  | 0, l, _, _ => l
  | fuel + 1, l, b, j =>
    if j < b ∧ less (aget l j) (aget l (j - 1)) then shiftRightLoop less fuel (aswap l j (j - 1)) b (j + 1) else l

/-- Outer `maxSteps` loop of Go `partialInsertionSort` (renamed): at most
five adjacent out-of-order pairs are repaired; below 50 elements the first
out-of-order pair aborts with `false`; returns (slice, sorted?). -/
def pisOuter (less : α → α → Bool) : Nat → List α → Nat → Nat → Nat → List α × Bool
  | 0, l, _, _, _ => (l, false)
  | fuel + 1, l, a, b, i =>
    let i := skipSorted less b l b i
    if i = b then (l, true)
    else if b - a < 50 then (l, false)
    else
      let l := aswap l i (i - 1)
      let l := if i - a ≥ 2 then shiftLeftLoop less i l (i - 1) else l
      let l := if b - i ≥ 2 then shiftRightLoop less b l b (i + 1) else l
      pisOuter less fuel l a b i

/-- Go `partialInsertionSort(data, a, b)` (renamed): partially sorts,
returning true iff the interval ended up sorted. -/
def partlyInsertionSort (less : α → α → Bool) (l : List α) (a b : Nat) : List α × Bool :=
  pisOuter less 5 l a b (a + 1)

/-- The `if !wasBalanced { breakPatterns(data, a, b); limit-- }` slice
mutation of the `pdqsort` loop body. -/
def pdqAfterBreak (wasBalanced : Bool) (l : List α) (a b : Nat) : List α :=
  if ¬ wasBalanced then breakPatterns l a b else l

/-- The `limit--` accompanying `breakPatterns` in the `pdqsort` loop body. -/
def pdqNextLimit (wasBalanced : Bool) (limit : Int) : Int :=
  if ¬ wasBalanced then limit - 1 else limit

/-- The `choosePivot` call and the reversal of a decreasing slice in the
`pdqsort` loop body; returns (slice, pivot, hint). -/
def pdqReversed (less : α → α → Bool) (l1 : List α) (a b : Nat) : List α × Nat × SHint :=
  let cp := choosePivot less l1 a b
  if cp.2 = SHint.decreasing then
    (reverseRange l1 a b, (b - 1) - (cp.1 - a), SHint.increasing)
  else (l1, cp.1, cp.2)

/-- The guarded `partialInsertionSort` attempt of the `pdqsort` loop body. -/
def pdqMaybePartlySort (less : α → α → Bool) (cond : Bool) (l2 : List α) (a b : Nat) :
    List α × Bool :=
  if cond then partlyInsertionSort less l2 a b else (l2, false)

/-- Go `pdqsort(data, a, b, limit)` (Go ≥ 1.19 `sort.Slice` engine): the
main loop with its `wasBalanced` / `wasPartitioned` state; the fuel
strictly dominates the iteration count (each loop iteration or recursive
call strictly shrinks `b - a`). -/
def pdqsortRec (less : α → α → Bool) : Nat → List α → Nat → Nat → Int → Bool → Bool → List α
  | 0, l, _, _, _, _, _ => l
  | fuel + 1, l, a, b, limit, wasBalanced, wasPartitioned =>
    if b - a ≤ 12 then insertionSort less l a b
    else if limit = 0 then heapSort less l a b
    else
      let l1 := pdqAfterBreak wasBalanced l a b
      let limit1 := pdqNextLimit wasBalanced limit
      let rv := pdqReversed less l1 a b
      let ps := pdqMaybePartlySort less
        (wasBalanced && wasPartitioned && decide (rv.2.2 = SHint.increasing)) rv.1 a b
      if ps.2 then ps.1
      else if a > 0 ∧ ¬ less (aget ps.1 (a - 1)) (aget ps.1 rv.2.1) then
        let pe := partitionEqualGo less ps.1 a b rv.2.1
        pdqsortRec less fuel pe.1 pe.2 b limit1 wasBalanced wasPartitioned
      else
        let pg := partitionGo less ps.1 a b rv.2.1
        let wasBalanced2 := decide (min (pg.2.1 - a) (b - pg.2.1) ≥ (b - a) / 8)
        if pg.2.1 - a < b - pg.2.1 then
          pdqsortRec less fuel (pdqsortRec less fuel pg.1 a pg.2.1 (limit1 - 1) true true)
            (pg.2.1 + 1) b (limit1 - 1) wasBalanced2 pg.2.2
        else
          pdqsortRec less fuel (pdqsortRec less fuel pg.1 (pg.2.1 + 1) b (limit1 - 1) true true)
            a pg.2.1 (limit1 - 1) wasBalanced2 pg.2.2

/-- Go `sort.Slice(x, less)`: `pdqsort(lessSwap, 0, n, bits.Len(n))`. -/
def goSortSlice (less : α → α → Bool) (l : List α) : List α :=
  pdqsortRec less ((l.length + 2) * (l.length + 2)) l 0 l.length (bitsLen l.length) true true

end GoSort

/-- An embedding as the search's conversion loop reconstructs it
(`model.ImageEmbedding` with the vector deserialized). -/
structure ParsedEmbedding where
  id : Nat
  imageID : Nat
  embedding : List ℚ
deriving DecidableEq, Repr, Inhabited

/-- Model of `imageRepository.CreateImage`: gorm `Create` appends a row. -/
def repoCreateImage (db : Db) (img : ImageRow) : Db :=
  { db with images := db.images ++ [img] }

/-- Model of `imageRepository.GetImageByID`: gorm `First(&image, "id = ?", id)`,
`none` standing for the `ErrRecordNotFound` error. -/
def repoGetImageByID (db : Db) (id : Nat) : Option ImageRow :=
  db.images.find? (fun r => r.id = id)

/-- Model of `imageRepository.ListImages`: count all rows, then
`Offset((page-1)*pageSize).Limit(pageSize).Find`.  The service layer always
passes `page ≥ 1` and `1 ≤ pageSize ≤ 100`, so the offset is nonnegative. -/
def repoListImages (db : Db) (page pageSize : Int) : List ImageRow × Nat :=
  let offset := (page - 1) * pageSize
  ((db.images.drop offset.toNat).take pageSize.toNat, db.images.length)

/-- Model of `imageRepository.DeleteImage`: one gorm transaction deleting
the embedding rows with `image_id = id` and then the image row; any error
inside the transaction rolls the whole transaction back, which is injected
by `txFails` (`none` = transaction failed, no change committed). -/
def repoDeleteImage (db : Db) (id : Nat) (txFails : Bool) : Option Db :=
  if txFails then none
  else some { db with
    embeddings := db.embeddings.filter (fun e => ¬ e.imageID = id),
    images := db.images.filter (fun i => ¬ i.id = id) }

/-- Model of `imageRepository.CreateImageEmbedding`: `json.Marshal` the
vector (total on well-formed input) and insert the blob row. -/
def repoCreateImageEmbedding (db : Db) (id imageID : Nat) (vec : List ℚ) (c u : Nat) : Db :=
  { db with embeddings := db.embeddings ++ [⟨id, imageID, Blob.wellFormed vec, c, u⟩] }

/-- First loop of `SearchSimilarImages` (src/unnamed/part_002 lines
166-177): `embeddings := make([]*model.ImageEmbedding, len(tempEmbeddings))`
followed by `continue` on an unmarshal failure, which leaves the
pre-allocated slot at its zero value `nil` (`none`). -/
def parseEmbeddings (rows : List EmbeddingRow) : List (Option ParsedEmbedding) :=
  rows.map (fun t => (deserializeBlob t.blob).map (fun v => ⟨t.id, t.imageID, v⟩))

/-- Distance loop of `SearchSimilarImages` (lines 185-192): dereferences
every slot (`emb.Embedding`) in order and appends an (imageID, distance)
entry for it; dereferencing a `nil` slot is a runtime panic, modelled as
`none` (nothing after the first nil slot is reached). -/
def searchCandidates (target : List ℚ) : List (Option ParsedEmbedding) → Option (List (Nat × ℚ))
  | [] => some []
  | none :: _ => none
  | some e :: rest =>
    (searchCandidates target rest).map
      (fun cs => (e.imageID, calculateEuclideanDistance target e.embedding) :: cs)

/-- The comparison closure passed to `sort.Slice` (line 195-197):
`distances[i].distance < distances[j].distance`. -/
def distLess (p q : Nat × ℚ) : Bool := p.2 < q.2

/-- Truncation `if len(distances) > limit { distances = distances[:limit] }`
(lines 200-202).  The callers only pass nonnegative limits. -/
def truncateCandidates (limit : Int) (cands : List (Nat × ℚ)) : List (Nat × ℚ) :=
  if (cands.length : Int) > limit then cands.take limit.toNat else cands

/-- Join loop (lines 208-215): fetch each surviving entry's image record,
silently skipping an entry whose record cannot be fetched, appending to the
two parallel result slices. -/
def joinCandidates (db : Db) (cands : List (Nat × ℚ)) : List ImageRow × List ℚ :=
  cands.foldl
    (fun acc d =>
      match repoGetImageByID db d.1 with
      | none => acc
      | some img => (acc.1 ++ [img], acc.2 ++ [d.2]))
    ([], [])

/-- Model of `imageRepository.SearchSimilarImages` (lines 152-218):
scan all embedding rows, deserialize (nil slot on failure), compute the
distance of each slot (panic on a nil slot), `sort.Slice` ascending by
distance, truncate to `limit`, join back to image records.  `none` models
the panic. -/
def repoSearchSimilarImages (db : Db) (target : List ℚ) (limit : Int) :
    Option (List ImageRow × List ℚ) :=
  (searchCandidates target (parseEmbeddings db.embeddings)).map
    (fun cands => joinCandidates db (truncateCandidates limit (goSortSlice distLess cands)))

/-- Decoded in-memory image: bounds `(0,0)-(width,height)` and 16-bit
per-channel pixel colors as returned by `RGBA()`. -/
structure GoImage where
  width : Nat
  height : Nat
  pix : Nat → Nat → Nat × Nat × Nat

instance : Inhabited GoImage := ⟨⟨0, 0, fun _ _ => (0, 0, 0)⟩⟩

/-- Model of `imageService.generateEmbedding` (image_service.go lines
267-295): mean per-channel intensity over the image, channels scaled by
1/65535, as exact rationals (the zero-pixel image divides by zero, NaN in
Go, `0` in `ℚ`; no caller constructs such an image). -/
def generateEmbedding (img : GoImage) : List ℚ :=
  let count : ℚ := ((img.width * img.height : Nat) : ℚ)
  let chan : (Nat × Nat × Nat → Nat) → ℚ := fun f =>
    (((List.range img.height).map (fun y =>
      ((List.range img.width).map (fun x => ((f (img.pix x y) : ℚ)) / 65535)).sum)).sum) / count
  [chan (fun p => p.1), chan (fun p => p.2.1), chan (fun p => p.2.2)]

/-- The collaborator functions the service composes: `image.Decode`, the
`nfnt/resize` resize-to-width-800, and the two encoders (`none` = encoding
error). -/
structure Collaborators where
  decode : List Nat → Option (GoImage × GoFmt)
  resizeTo800 : GoImage → GoImage
  encodeJpeg : GoImage → Option (List Nat)
  encodePng : GoImage → Option (List Nat)

/-- Service-level error outcomes (the Go code returns plain `error`s; the
constructors record which step failed). -/
inductive SvcErr where
  | readFailed
  | seekFailed
  | decodeFailed
  | unsupportedFormat
  | createFailed
  | encodeFailed
  | statFailed
  | persistImage
  | persistEmbedding
  | notFound
  | removeFailed
  | deleteRecords
deriving DecidableEq, Repr, Inhabited

/-- Fault-injection and fresh-identity environment for one `UploadImage`
call: which fallible steps fail, the `uuid.New()` results, and the clock. -/
structure UploadEnv where
  copyFails : Bool
  seekFails : Bool
  createFails : Bool
  statFails : Bool
  createImageFails : Bool
  createEmbeddingFails : Bool
  freshPathId : Nat
  freshImageId : Nat
  freshEmbeddingId : Nat
  now : Nat
deriving DecidableEq, Repr, Inhabited

/-- Service state: the database plus the on-disk artifact directory
(path ↦ byte content). -/
structure SState where
  db : Db
  files : List (FPath × List Nat)
deriving DecidableEq, Repr, Inhabited

/-- Whether a file exists at the path. -/
def fileExists (st : SState) (p : FPath) : Bool := st.files.any (fun f => f.1 = p)

/-- Create or truncate-and-write a file (`os.Create` + encoder output). -/
def writeFile (st : SState) (p : FPath) (content : List Nat) : SState :=
  { st with files := st.files.filter (fun f => ¬ f.1 = p) ++ [(p, content)] }

/-- `os.Remove` with the error ignored, as in the rollback paths. -/
def removeFileQuiet (st : SState) (p : FPath) : SState :=
  { st with files := st.files.filter (fun f => ¬ f.1 = p) }

/-- Byte content at a path (`dst.Stat()` is taken on the just-written
handle, which always exists on that path). -/
def fileContent (st : SState) (p : FPath) : List Nat :=
  ((st.files.find? (fun f => f.1 = p)).map Prod.snd).getD []

/-- Outcome of the encoding `switch` in `UploadImage`: a written byte
stream, an encoder error, or no matching case (nothing written; not
reachable because the format was checked). -/
inductive EncOutcome where
  | wrote (bytes : List Nat)
  | failed
  | skipped
deriving DecidableEq, Repr, Inhabited

/-- The `switch extension` encode step of `UploadImage` (lines 98-109). -/
def encodeStep (c : Collaborators) (ext : GoFmt) (img : GoImage) : EncOutcome :=
  match ext with
  | GoFmt.jpeg => (match c.encodeJpeg img with | some bs => .wrote bs | none => .failed)
  | GoFmt.png => (match c.encodePng img with | some bs => .wrote bs | none => .failed)
  | GoFmt.other => .skipped

/-- Tail of `UploadImage` after the encode step (lines 111-165): derive
width/height from the resized image and the size from the written file,
persist the Image record (rolling back the artifact on failure), compute
and persist the embedding (rolling back artifact and record on failure). -/
def svcUploadFinish (env : UploadEnv) (st : SState) (filePath : FPath) (extension : GoFmt)
    (origName : Nat) (resized : GoImage) : Except SvcErr ImageRow × SState :=
  let width := resized.width
  let height := resized.height
  if env.statFails then (.error .statFailed, st)
  else
    let size := (fileContent st filePath).length
    let record : ImageRow :=
      { id := env.freshImageId, fileName := origName, filePath := filePath,
        extension := extension, width := width, height := height, size := size,
        createdAt := env.now, updatedAt := env.now }
    if env.createImageFails then
      (.error .persistImage, removeFileQuiet st filePath)
    else
      let st := { st with db := repoCreateImage st.db record }
      let embedding := generateEmbedding resized
      if env.createEmbeddingFails then
        let st := removeFileQuiet st filePath
        let st := { st with db := (repoDeleteImage st.db record.id false).getD st.db }
        (.error .persistEmbedding, st)
      else
        let st := { st with
          db := repoCreateImageEmbedding st.db env.freshEmbeddingId record.id embedding env.now env.now }
        (.ok record, st)

/-- Model of `imageService.UploadImage` (image_service.go lines 54-165):
read, decode, reject formats other than jpeg/png, create the artifact
file, resize, encode into it, then `svcUploadFinish`.  `strings.ToLower`
of the already-lowercase registration names "jpeg"/"png" is the identity,
so `extension = format`. -/
def svcUploadImage (c : Collaborators) (env : UploadEnv) (st : SState)
    (fileBytes : List Nat) (origName : Nat) : Except SvcErr ImageRow × SState :=
  if env.copyFails then (.error .readFailed, st)
  else if env.seekFails then (.error .seekFailed, st)
  else
    match c.decode fileBytes with
    | none => (.error .decodeFailed, st)
    | some (img, format) =>
      if ¬ (format = GoFmt.jpeg ∨ format = GoFmt.png) then (.error .unsupportedFormat, st)
      else
        let extension := format
        let filePath : FPath := (env.freshPathId, extension)
        if env.createFails then (.error .createFailed, st)
        else
          let st := writeFile st filePath []
          let resized := c.resizeTo800 img
          match encodeStep c extension resized with
          | EncOutcome.failed => (.error .encodeFailed, st)
          | EncOutcome.wrote bs =>
            svcUploadFinish env (writeFile st filePath bs) filePath extension origName resized
          | EncOutcome.skipped =>
            svcUploadFinish env st filePath extension origName resized

/-- Model of `imageService.GetImage`: delegates to the repository. -/
def svcGetImage (st : SState) (id : Nat) : Option ImageRow :=
  repoGetImageByID st.db id

/-- Model of `imageService.ListImages` (lines 173-194): clamp `page` to at
least 1, replace an out-of-range `pageSize` by the default 10, delegate. -/
def svcListImages (st : SState) (page pageSize : Int) : List ImageRow × Nat :=
  let page := if page < 1 then 1 else page
  let pageSize := if pageSize < 1 ∨ pageSize > 100 then 10 else pageSize
  repoListImages st.db page pageSize

/-- Model of `imageService.DeleteImage` (lines 197-218): fetch the record,
`os.Remove` the artifact (propagating its error), then the repository's
record-pair transaction (with `txFails` injecting its failure). -/
def svcDeleteImage (st : SState) (id : Nat) (txFails : Bool) : Except SvcErr Unit × SState :=
  match repoGetImageByID st.db id with
  | none => (.error .notFound, st)
  | some img =>
    if fileExists st img.filePath then
      let st1 := removeFileQuiet st img.filePath
      match repoDeleteImage st1.db id txFails with
      | none => (.error .deleteRecords, st1)
      | some db2 => (.ok (), { st1 with db := db2 })
    else (.error .removeFailed, st)

/-- Outcome of a service-level search: an error return, a runtime panic,
or the parallel (images, distances) result slices. -/
inductive SearchOut where
  | errored (e : SvcErr)
  | panicked
  | ok (images : List ImageRow) (distances : List ℚ)
deriving DecidableEq, Repr, Inhabited

/-- Model of `imageService.SearchImagesByImage` (lines 221-263): read,
decode, resize, embed the query image, then search with the fixed limit
10. -/
def svcSearchImagesByImage (c : Collaborators) (copyFails seekFails : Bool) (st : SState)
    (fileBytes : List Nat) : SearchOut :=
  if copyFails then .errored .readFailed
  else if seekFails then .errored .seekFailed
  else
    match c.decode fileBytes with
    | none => .errored .decodeFailed
    | some (img, _) =>
      let resized := c.resizeTo800 img
      let embedding := generateEmbedding resized
      match repoSearchSimilarImages st.db embedding 10 with
      | none => .panicked
      | some (imgs, dists) => .ok imgs dists

/-- The (imageID, distance) candidate list produced by the two search
loops when every blob deserializes (derived form of `searchCandidates`,
related to it by `searchCandidates_eq_of_parse`). -/
def candList (target : List ℚ) (rows : List EmbeddingRow) : List (Nat × ℚ) :=
  rows.filterMap
    (fun r => (deserializeBlob r.blob).map (fun v => (r.imageID, calculateEuclideanDistance target v)))

/-- The (image, distance) pairs the join loop accumulates in its two
parallel slices (derived form of `joinCandidates`, related to it by
`joinCandidates_eq`). -/
def joinedPairs (db : Db) (cands : List (Nat × ℚ)) : List (ImageRow × ℚ) :=
  cands.filterMap (fun d => (repoGetImageByID db d.1).map (fun im => (im, d.2)))

/-- Example image record `i`: identity, display name and path all tagged
with `i`. -/
def exImage (i : Nat) : ImageRow := ⟨i, i, (i, GoFmt.jpeg), GoFmt.jpeg, 1, 1, 1, 0, 0⟩

/-- Example well-formed embedding row. -/
def exEmbedding (i imgId : Nat) (v : List ℚ) : EmbeddingRow := ⟨i, imgId, Blob.wellFormed v, 0, 0⟩

/-- Distances (as stored one-component vectors) of the thirteen-entry
stability scenario: entries 0 and 1 tie at distance 5 from the query `[0]`. -/
def tieVals : List ℚ := [5, 5, 0, 1, 2, 3, 4, 6, 7, 8, 9, 10, 11]

/-- Thirteen stored images with embeddings `[tieVals[i]]` in insertion
order `0, 1, …, 12`; thirteen entries exceed Go sort's insertion-sort
threshold (12), so `sort.Slice` partitions. -/
def dbThirteen : Db :=
  { images := (List.range 13).map exImage,
    embeddings := (List.range 13).map (fun i => exEmbedding (100 + i) i [tieVals.getD i 0]) }

/-- The spec §8 search-ordering scenario: A = image 1 at `[0,0,0]`,
B = image 2 at `[1,0,0]`, C = image 3 at `[10,10,10]`. -/
def dbOrdering : Db :=
  { images := [exImage 1, exImage 2, exImage 3],
    embeddings := [exEmbedding 101 1 [0, 0, 0], exEmbedding 102 2 [1, 0, 0],
                   exEmbedding 103 3 [10, 10, 10]] }

/-- A collection whose second stored blob is corrupt. -/
def dbCorrupt : Db :=
  { images := [exImage 1, exImage 2],
    embeddings := [exEmbedding 101 1 [1], ⟨102, 2, Blob.corrupt, 0, 0⟩] }

/-- One stored three-component vector (compared against five-component
queries). -/
def dbMismatch : Db := { images := [exImage 7], embeddings := [exEmbedding 107 7 [1, 2, 3]] }

/-- One stored two-component vector (compared against three-component
queries). -/
def dbMismatchPair : Db := { images := [exImage 4], embeddings := [exEmbedding 104 4 [2, 2]] }

/-- A store of 101 images, enough that pageSize 100 and pageSize 10 return
different pages. -/
def stHundredOne : SState := ⟨{ images := (List.range 101).map exImage, embeddings := [] }, []⟩

/-- A store holding image 5, its embedding, and its on-disk artifact. -/
def stDelete : SState :=
  { db := { images := [exImage 5], embeddings := [exEmbedding 105 5 [1]] },
    files := [((5, GoFmt.jpeg), [7, 7])] }

/-- A decoded 4×3 image. -/
def imgFourByThree : GoImage := ⟨4, 3, fun _ _ => (6553, 13107, 19660)⟩

/-- A 2×1 image standing for the resized artifact. -/
def imgTwoByOne : GoImage := ⟨2, 1, fun _ _ => (0, 0, 0)⟩

/-- Collaborators whose jpeg encoder fails (disk-full during `jpeg.Encode`). -/
def collabEncodeFail : Collaborators :=
  ⟨fun _ => some (imgFourByThree, GoFmt.jpeg), fun im => im, fun _ => none, fun _ => some []⟩

/-- Collaborators decoding a 4×3 png, resizing it to 2×1, encoding to four
bytes. -/
def collabRoundtrip : Collaborators :=
  ⟨fun _ => some (imgFourByThree, GoFmt.png), fun _ => imgTwoByOne,
   fun _ => some [1, 2, 3], fun _ => some [1, 2, 3, 4]⟩

/-- Fault-free upload environment with fresh identities 7 (path), 8
(image), 9 (embedding). -/
def envNoFaults : UploadEnv := ⟨false, false, false, false, false, false, 7, 8, 9, 0⟩

/-- The empty store. -/
def stEmpty : SState := ⟨⟨[], []⟩, []⟩

/-- A 1×1 all-black image: its mean-intensity embedding is `[0, 0, 0]`. -/
def imgOnePixelZero : GoImage := ⟨1, 1, fun _ _ => (0, 0, 0)⟩

/-- Collaborators decoding the all-black query image unchanged. -/
def collabQueryZero : Collaborators :=
  ⟨fun _ => some (imgOnePixelZero, GoFmt.jpeg), fun im => im, fun _ => some [], fun _ => some []⟩

/-- A store with a single image at embedding `[0, 0, 0]`. -/
def dbSingleZero : Db := { images := [exImage 1], embeddings := [exEmbedding 101 1 [0, 0, 0]] }

/-- The Image record the fault-free `collabRoundtrip` upload produces. -/
def recRoundtrip : ImageRow := ⟨8, 5, (7, GoFmt.png), GoFmt.png, 2, 1, 4, 0, 0⟩

/-- The store state after the fault-free `collabRoundtrip` upload. -/
def stRoundtrip : SState :=
  ⟨⟨[recRoundtrip], [⟨9, 8, Blob.wellFormed [0, 0, 0], 0, 0⟩]⟩, [((7, GoFmt.png), [1, 2, 3, 4])]⟩

section PermLemmas

variable {α : Type}

theorem set_getD_self : ∀ (l : List α) (i : Nat) (d : α), i < l.length → l.set i (l.getD i d) = l
  | [], _, _, h => absurd h (by simp)
  | a :: t, 0, d, _ => by simp
  | a :: t, i + 1, d, h => by
    simp only [List.getD_cons_succ, List.set_cons_succ]
    exact congrArg (a :: ·) (set_getD_self t i d (Nat.lt_of_succ_lt_succ (by simpa using h)))

theorem getD_cons_set_perm : ∀ (t : List α) (j : Nat) (x d : α), j < t.length →
    List.Perm (t.getD j d :: t.set j x) (x :: t)
  | [], _, _, _, h => absurd h (by simp)
  | b :: t', 0, x, d, _ => by
    simpa using List.Perm.swap x b t'
  | b :: t', j + 1, x, d, h => by
    simp only [List.getD_cons_succ, List.set_cons_succ]
    have ih := getD_cons_set_perm t' j x d (Nat.lt_of_succ_lt_succ (by simpa using h))
    exact (List.Perm.swap b _ _).trans ((List.Perm.cons b ih).trans (List.Perm.swap x b t'))

theorem set_set_swap_perm : ∀ (l : List α) (i j : Nat) (d : α),
    i < l.length → j < l.length →
    List.Perm ((l.set i (l.getD j d)).set j (l.getD i d)) l
  | [], _, _, _, h, _ => absurd h (by simp)
  | a :: t, 0, 0, d, _, _ => by simp
  | a :: t, 0, j + 1, d, _, hj => by
    simp only [List.getD_cons_succ, List.getD_cons_zero, List.set_cons_zero, List.set_cons_succ]
    exact getD_cons_set_perm t j a d (Nat.lt_of_succ_lt_succ (by simpa using hj))
  | a :: t, i + 1, 0, d, hi, _ => by
    simp only [List.getD_cons_succ, List.getD_cons_zero, List.set_cons_zero, List.set_cons_succ]
    exact getD_cons_set_perm t i a d (Nat.lt_of_succ_lt_succ (by simpa using hi))
  | a :: t, i + 1, j + 1, d, hi, hj => by
    simp only [List.getD_cons_succ, List.set_cons_succ]
    exact List.Perm.cons a (set_set_swap_perm t i j d
      (Nat.lt_of_succ_lt_succ (by simpa using hi)) (Nat.lt_of_succ_lt_succ (by simpa using hj)))

theorem aswap_perm [Inhabited α] (l : List α) (i j : Nat) : List.Perm (aswap l i j) l := by
  unfold aswap
  split
  next h => exact set_set_swap_perm l i j default h.1 h.2
  next => exact List.Perm.refl _

theorem insertInner_perm [Inhabited α] (less : α → α → Bool) :
    ∀ (fuel : Nat) (l : List α) (a j : Nat), List.Perm (insertInner less fuel l a j) l
  | 0, l, _, _ => List.Perm.refl l
  | fuel + 1, l, a, j => by
    rw [insertInner]
    split
    · exact (insertInner_perm less fuel _ a (j - 1)).trans (aswap_perm l j (j - 1))
    · exact List.Perm.refl l

theorem insertOuter_perm [Inhabited α] (less : α → α → Bool) :
    ∀ (fuel : Nat) (l : List α) (a i b : Nat), List.Perm (insertOuter less fuel l a i b) l
  | 0, l, _, _, _ => List.Perm.refl l
  | fuel + 1, l, a, i, b => by
    rw [insertOuter]
    split
    · exact (insertOuter_perm less fuel _ a (i + 1) b).trans (insertInner_perm less i l a i)
    · exact List.Perm.refl l

theorem insertionSort_perm [Inhabited α] (less : α → α → Bool) (l : List α) (a b : Nat) :
    List.Perm (insertionSort less l a b) l :=
  insertOuter_perm less b l a (a + 1) b

theorem siftDown_perm [Inhabited α] (less : α → α → Bool) :
    ∀ (fuel : Nat) (l : List α) (root hi first : Nat), List.Perm (siftDown less fuel l root hi first) l
  | 0, l, _, _, _ => List.Perm.refl l
  | fuel + 1, l, root, hi, first => by
    rw [siftDown]
    dsimp only
    split
    · exact List.Perm.refl l
    · split <;> split <;> first
        | exact List.Perm.refl l
        | exact (siftDown_perm less fuel _ _ hi first).trans (aswap_perm l _ _)

theorem heapBuild_perm [Inhabited α] (less : α → α → Bool) :
    ∀ (k : Nat) (l : List α) (hi first : Nat), List.Perm (heapBuild less k l hi first) l
  | 0, l, _, _ => List.Perm.refl l
  | k + 1, l, hi, first =>
    (heapBuild_perm less k _ hi first).trans (siftDown_perm less hi l k hi first)

theorem heapPop_perm [Inhabited α] (less : α → α → Bool) :
    ∀ (k : Nat) (l : List α) (first : Nat), List.Perm (heapPop less k l first) l
  | 0, l, _ => List.Perm.refl l
  | k + 1, l, first =>
    (heapPop_perm less k _ first).trans
      ((siftDown_perm less (k + 1) _ 0 k first).trans (aswap_perm l first (first + k)))

theorem heapSort_perm [Inhabited α] (less : α → α → Bool) (l : List α) (a b : Nat) :
    List.Perm (heapSort less l a b) l :=
  (heapPop_perm less (b - a) _ a).trans (heapBuild_perm less ((b - a - 1) / 2 + 1) l (b - a) a)

theorem revLoop_perm [Inhabited α] :
    ∀ (fuel : Nat) (l : List α) (i j : Nat), List.Perm (revLoop fuel l i j) l
  | 0, l, _, _ => List.Perm.refl l
  | fuel + 1, l, i, j => by
    rw [revLoop]
    split
    · exact (revLoop_perm fuel _ (i + 1) (j - 1)).trans (aswap_perm l i j)
    · exact List.Perm.refl l

theorem reverseRange_perm [Inhabited α] (l : List α) (a b : Nat) :
    List.Perm (reverseRange l a b) l :=
  revLoop_perm b l a (b - 1)

theorem breakPatternsStep_fst_perm [Inhabited α] (l : List α) (a length modulus idx i rnd : Nat) :
    List.Perm (breakPatternsStep l a length modulus idx i rnd).1 l := by
  unfold breakPatternsStep
  exact aswap_perm l _ _

theorem breakPatterns_perm [Inhabited α] (l : List α) (a b : Nat) :
    List.Perm (breakPatterns l a b) l := by
  unfold breakPatterns
  dsimp only
  split
  · exact (breakPatternsStep_fst_perm _ _ _ _ _ _ _).trans
      ((breakPatternsStep_fst_perm _ _ _ _ _ _ _).trans (breakPatternsStep_fst_perm _ _ _ _ _ _ _))
  · exact List.Perm.refl l

theorem partitionLoop_fst_perm [Inhabited α] (less : α → α → Bool) :
    ∀ (fuel : Nat) (l : List α) (a i j : Nat), List.Perm (partitionLoop less fuel l a i j).1 l
  | 0, l, _, _, _ => List.Perm.refl l
  | fuel + 1, l, a, i, j => by
    rw [partitionLoop]
    split
    · exact List.Perm.refl l
    · exact (partitionLoop_fst_perm less fuel _ a _ _).trans (aswap_perm l _ _)

theorem partitionGo_fst_perm [Inhabited α] (less : α → α → Bool) (l : List α) (a b pivot : Nat) :
    List.Perm (partitionGo less l a b pivot).1 l := by
  unfold partitionGo
  dsimp only
  split
  · exact (aswap_perm _ _ _).trans (aswap_perm l a pivot)
  · exact (aswap_perm _ _ _).trans ((partitionLoop_fst_perm less b _ a _ _).trans
      ((aswap_perm _ _ _).trans (aswap_perm l a pivot)))

theorem partitionEqualLoop_fst_perm [Inhabited α] (less : α → α → Bool) :
    ∀ (fuel : Nat) (l : List α) (a i j : Nat), List.Perm (partitionEqualLoop less fuel l a i j).1 l
  | 0, l, _, _, _ => List.Perm.refl l
  | fuel + 1, l, a, i, j => by
    rw [partitionEqualLoop]
    split
    · exact List.Perm.refl l
    · exact (partitionEqualLoop_fst_perm less fuel _ a _ _).trans (aswap_perm l _ _)

theorem partitionEqualGo_fst_perm [Inhabited α] (less : α → α → Bool) (l : List α) (a b pivot : Nat) :
    List.Perm (partitionEqualGo less l a b pivot).1 l := by
  unfold partitionEqualGo
  exact (partitionEqualLoop_fst_perm less b _ a _ _).trans (aswap_perm l a pivot)

theorem shiftLeftLoop_perm [Inhabited α] (less : α → α → Bool) :
    ∀ (fuel : Nat) (l : List α) (j : Nat), List.Perm (shiftLeftLoop less fuel l j) l
  | 0, l, _ => List.Perm.refl l
  | fuel + 1, l, j => by
    rw [shiftLeftLoop]
    split
    · exact (shiftLeftLoop_perm less fuel _ (j - 1)).trans (aswap_perm l j (j - 1))
    · exact List.Perm.refl l

theorem shiftRightLoop_perm [Inhabited α] (less : α → α → Bool) :
    ∀ (fuel : Nat) (l : List α) (b j : Nat), List.Perm (shiftRightLoop less fuel l b j) l
  | 0, l, _, _ => List.Perm.refl l
  | fuel + 1, l, b, j => by
    rw [shiftRightLoop]
    split
    · exact (shiftRightLoop_perm less fuel _ b (j + 1)).trans (aswap_perm l j (j - 1))
    · exact List.Perm.refl l

theorem pisOuter_fst_perm [Inhabited α] (less : α → α → Bool) :
    ∀ (fuel : Nat) (l : List α) (a b i : Nat), List.Perm (pisOuter less fuel l a b i).1 l
  | 0, l, _, _, _ => List.Perm.refl l
  | fuel + 1, l, a, b, i => by
    rw [pisOuter]
    dsimp only
    generalize skipSorted less b l b i = i2
    split
    · exact List.Perm.refl l
    · split
      · exact List.Perm.refl l
      · have hL : List.Perm
            (if i2 - a ≥ 2 then shiftLeftLoop less i2 (aswap l i2 (i2 - 1)) (i2 - 1)
             else aswap l i2 (i2 - 1)) l := by
          split
          · exact (shiftLeftLoop_perm less i2 _ (i2 - 1)).trans (aswap_perm l i2 (i2 - 1))
          · exact aswap_perm l i2 (i2 - 1)
        have hR : List.Perm
            (if b - i2 ≥ 2 then
              shiftRightLoop less b
                (if i2 - a ≥ 2 then shiftLeftLoop less i2 (aswap l i2 (i2 - 1)) (i2 - 1)
                 else aswap l i2 (i2 - 1)) b (i2 + 1)
             else
              (if i2 - a ≥ 2 then shiftLeftLoop less i2 (aswap l i2 (i2 - 1)) (i2 - 1)
               else aswap l i2 (i2 - 1))) l := by
          split
          · exact (shiftRightLoop_perm less b _ b (i2 + 1)).trans hL
          · exact hL
        exact (pisOuter_fst_perm less fuel _ a b i2).trans hR

theorem partlyInsertionSort_fst_perm [Inhabited α] (less : α → α → Bool) (l : List α) (a b : Nat) :
    List.Perm (partlyInsertionSort less l a b).1 l :=
  pisOuter_fst_perm less 5 l a b (a + 1)

theorem pdqAfterBreak_perm [Inhabited α] (wasBalanced : Bool) (l : List α) (a b : Nat) :
    List.Perm (pdqAfterBreak wasBalanced l a b) l := by
  unfold pdqAfterBreak
  split
  · exact breakPatterns_perm l a b
  · exact List.Perm.refl l

theorem pdqReversed_fst_perm [Inhabited α] (less : α → α → Bool) (l : List α) (a b : Nat) :
    List.Perm (pdqReversed less l a b).1 l := by
  unfold pdqReversed
  dsimp only
  split
  · exact reverseRange_perm l a b
  · exact List.Perm.refl l

theorem pdqMaybePartlySort_fst_perm [Inhabited α] (less : α → α → Bool) (cond : Bool)
    (l : List α) (a b : Nat) : List.Perm (pdqMaybePartlySort less cond l a b).1 l := by
  unfold pdqMaybePartlySort
  split
  · exact partlyInsertionSort_fst_perm less l a b
  · exact List.Perm.refl l

theorem pdqsortRec_perm [Inhabited α] (less : α → α → Bool) :
    ∀ (fuel : Nat) (l : List α) (a b : Nat) (limit : Int) (wb wp : Bool),
      List.Perm (pdqsortRec less fuel l a b limit wb wp) l
  | 0, l, _, _, _, _, _ => List.Perm.refl l
  | fuel + 1, l, a, b, limit, wb, wp => by
    rw [pdqsortRec]
    dsimp only
    have hps : List.Perm (pdqMaybePartlySort less
        (wb && wp && decide ((pdqReversed less (pdqAfterBreak wb l a b) a b).2.2 = SHint.increasing))
        (pdqReversed less (pdqAfterBreak wb l a b) a b).1 a b).1 l :=
      (pdqMaybePartlySort_fst_perm less _ _ a b).trans
        ((pdqReversed_fst_perm less _ a b).trans (pdqAfterBreak_perm wb l a b))
    split
    · exact insertionSort_perm less l a b
    · split
      · exact heapSort_perm less l a b
      · split
        · exact hps
        · split
          · exact (pdqsortRec_perm less fuel _ _ b _ wb wp).trans
              ((partitionEqualGo_fst_perm less _ a b _).trans hps)
          · split
            · exact (pdqsortRec_perm less fuel _ _ b _ _ _).trans
                ((pdqsortRec_perm less fuel _ a _ _ true true).trans
                  ((partitionGo_fst_perm less _ a b _).trans hps))
            · exact (pdqsortRec_perm less fuel _ a _ _ _ _).trans
                ((pdqsortRec_perm less fuel _ _ b _ true true).trans
                  ((partitionGo_fst_perm less _ a b _).trans hps))

theorem goSortSlice_perm [Inhabited α] (less : α → α → Bool) (l : List α) :
    List.Perm (goSortSlice less l) l :=
  pdqsortRec_perm less _ l 0 l.length _ true true

end PermLemmas

theorem sumSq_nonneg (v1 v2 : List ℚ) :
    (0 : ℚ) ≤ ((v1.zip v2).map (fun p => (p.1 - p.2) * (p.1 - p.2))).sum := by
  apply List.sum_nonneg
  intro x hx
  obtain ⟨p, _, rfl⟩ := List.mem_map.mp hx
  exact mul_self_nonneg _

theorem squared_representation_faithful (v1 v2 w1 w2 : List ℚ)
    (h1 : v1.length = v2.length) (h2 : w1.length = w2.length) :
    euclideanDistR v1 v2 < euclideanDistR w1 w2 ↔
      calculateEuclideanDistance v1 v2 < calculateEuclideanDistance w1 w2 := by
  unfold euclideanDistR calculateEuclideanDistance
  rw [if_neg (by simpa using h1), if_neg (by simpa using h2),
      if_neg (by simpa using h1), if_neg (by simpa using h2)]
  rw [Real.sqrt_lt_sqrt_iff (by exact_mod_cast sumSq_nonneg v1 v2)]
  exact_mod_cast Iff.rfl

theorem searchCandidates_eq_of_parse (target : List ℚ) (rows : List EmbeddingRow)
    (h : ∀ r ∈ rows, deserializeBlob r.blob ≠ none) :
    searchCandidates target (parseEmbeddings rows) = some (candList target rows) := by
  induction rows with
  | nil => rfl
  | cons r rs ih =>
    have hr := h r (List.mem_cons_self r rs)
    cases hv : deserializeBlob r.blob with
    | none => exact absurd hv hr
    | some v =>
      have ih' := ih (fun x hx => h x (List.mem_cons_of_mem r hx))
      have hstep : parseEmbeddings (r :: rs) =
          (some ⟨r.id, r.imageID, v⟩ : Option ParsedEmbedding) :: parseEmbeddings rs := by
        simp [parseEmbeddings, hv]
      rw [hstep, searchCandidates, ih']
      simp [candList, List.filterMap_cons, hv]

theorem searchCandidates_some_imp (target : List ℚ) :
    ∀ (rows : List EmbeddingRow) (cands : List (Nat × ℚ)),
      searchCandidates target (parseEmbeddings rows) = some cands →
      cands = candList target rows := by
  intro rows
  induction rows with
  | nil =>
    intro cands h
    have h2 : some ([] : List (Nat × ℚ)) = some cands := h
    injection h2 with h3
    rw [← h3]
    rfl
  | cons r rs ih =>
    intro cands h
    cases hv : deserializeBlob r.blob with
    | none =>
      exfalso
      have hstep : parseEmbeddings (r :: rs) = none :: parseEmbeddings rs := by
        simp [parseEmbeddings, hv]
      rw [hstep, searchCandidates] at h
      exact Option.noConfusion h
    | some v =>
      have hstep : parseEmbeddings (r :: rs) =
          (some ⟨r.id, r.imageID, v⟩ : Option ParsedEmbedding) :: parseEmbeddings rs := by
        simp [parseEmbeddings, hv]
      rw [hstep, searchCandidates] at h
      cases hm : searchCandidates target (parseEmbeddings rs) with
      | none => rw [hm] at h; exact Option.noConfusion h
      | some cs =>
        rw [hm] at h
        simp only [Option.map_some', Option.some.injEq] at h
        rw [← h, ih cs hm]
        simp [candList, List.filterMap_cons, hv]

theorem candList_length_of_parse (target : List ℚ) (rows : List EmbeddingRow)
    (h : ∀ r ∈ rows, deserializeBlob r.blob ≠ none) :
    (candList target rows).length = rows.length := by
  induction rows with
  | nil => rfl
  | cons r rs ih =>
    have hr := h r (List.mem_cons_self r rs)
    cases hv : deserializeBlob r.blob with
    | none => exact absurd hv hr
    | some v =>
      simp only [candList, List.filterMap_cons, hv, Option.map_some', List.length_cons]
      exact congrArg (· + 1) (ih (fun x hx => h x (List.mem_cons_of_mem r hx)))

theorem mem_candList_of (target : List ℚ) {rows : List EmbeddingRow} {r : EmbeddingRow}
    {v : List ℚ} (hr : r ∈ rows) (hv : deserializeBlob r.blob = some v) :
    (r.imageID, calculateEuclideanDistance target v) ∈ candList target rows :=
  List.mem_filterMap.mpr ⟨r, hr, by rw [hv]; rfl⟩

theorem of_mem_candList {target : List ℚ} {rows : List EmbeddingRow} {d : Nat × ℚ}
    (hd : d ∈ candList target rows) :
    ∃ r ∈ rows, ∃ v, deserializeBlob r.blob = some v ∧
      d = (r.imageID, calculateEuclideanDistance target v) := by
  obtain ⟨r, hr, hf⟩ := List.mem_filterMap.mp hd
  cases hv : deserializeBlob r.blob with
  | none => rw [hv] at hf; exact absurd hf (by simp)
  | some v =>
    rw [hv] at hf
    refine ⟨r, hr, v, hv, ?eq⟩
    simpa using hf.symm

theorem joinCandidates_foldl (db : Db) (cands : List (Nat × ℚ)) :
    ∀ acc : List ImageRow × List ℚ,
      cands.foldl
        (fun acc d =>
          match repoGetImageByID db d.1 with
          | none => acc
          | some img => (acc.1 ++ [img], acc.2 ++ [d.2])) acc
      = (acc.1 ++ (joinedPairs db cands).map Prod.fst,
         acc.2 ++ (joinedPairs db cands).map Prod.snd) := by
  induction cands with
  | nil => intro acc; simp [joinedPairs]
  | cons d ds ih =>
    intro acc
    rw [List.foldl_cons]
    cases h : repoGetImageByID db d.1 with
    | none =>
      simp only [h]
      rw [ih acc]
      simp [joinedPairs, List.filterMap_cons, h]
    | some img =>
      simp only [h]
      rw [ih (acc.1 ++ [img], acc.2 ++ [d.2])]
      simp [joinedPairs, List.filterMap_cons, h]

theorem joinCandidates_eq (db : Db) (cands : List (Nat × ℚ)) :
    joinCandidates db cands =
      ((joinedPairs db cands).map Prod.fst, (joinedPairs db cands).map Prod.snd) := by
  have h := joinCandidates_foldl db cands ([], [])
  simpa [joinCandidates] using h

theorem truncateCandidates_of_le {k : Int} {cands : List (Nat × ℚ)}
    (h : (cands.length : Int) ≤ k) : truncateCandidates k cands = cands := by
  unfold truncateCandidates
  rw [if_neg (by omega)]

theorem truncateCandidates_subset (k : Int) (cands : List (Nat × ℚ)) :
    ∀ d ∈ truncateCandidates k cands, d ∈ cands := by
  unfold truncateCandidates
  split
  · exact fun d hd => List.take_subset _ _ hd
  · exact fun d hd => hd

theorem repoSearch_eq_of_parse (db : Db) (q : List ℚ) (k : Int)
    (h : ∀ r ∈ db.embeddings, deserializeBlob r.blob ≠ none) :
    repoSearchSimilarImages db q k =
      some (joinCandidates db (truncateCandidates k (goSortSlice distLess (candList q db.embeddings)))) := by
  unfold repoSearchSimilarImages
  rw [searchCandidates_eq_of_parse q db.embeddings h]
  rfl

set_option maxRecDepth 100000

theorem fileExists_removeFileQuiet (st : SState) (p : FPath) :
    fileExists (removeFileQuiet st p) p = false := by
  unfold fileExists removeFileQuiet
  rw [Bool.eq_false_iff]
  intro h
  obtain ⟨f, hf, hp⟩ := List.any_eq_true.mp h
  have hne := (List.mem_filter.mp hf).2
  simp only [decide_eq_true_eq] at hne hp
  exact hne hp

theorem fileContent_writeFile (st : SState) (p : FPath) (content : List Nat) :
    fileContent (writeFile st p content) p = content := by
  unfold fileContent writeFile
  rw [List.find?_append]
  have hnone : (st.files.filter (fun f => ¬ f.1 = p)).find? (fun f => f.1 = p) = none := by
    rw [List.find?_eq_none]
    intro x hx
    have hne := (List.mem_filter.mp hx).2
    simpa using hne
  rw [hnone]
  simp

/-- C1 counterexample: with one stored three-component vector and a
five-component query, the stored entry is not omitted from the results:
it is returned, carrying the sentinel distance `MaxFloat32`. -/
theorem c1_mismatched_entry_returned_counterexample :
    repoSearchSimilarImages dbMismatch [1, 2, 3, 4, 5] 10 =
      some ([exImage 7], [maxFloat32Sq]) ∧
    (exEmbedding 107 7 [1, 2, 3]).blob = Blob.wellFormed [1, 2, 3] ∧
    ([1, 2, 3] : List ℚ).length ≠ ([1, 2, 3, 4, 5] : List ℚ).length := by
  refine ⟨by with_unfolding_all rfl, rfl, by decide⟩

/-- C1 (amended): a stored vector whose length differs from the query's is
not excluded: `calculateEuclideanDistance` returns the sentinel
`MaxFloat32` for it and the entry is ranked like any other, so whenever the
limit covers the collection and its image record exists it appears in the
returned results with that maximal distance. -/
theorem c1_mismatch_assigned_max_distance
    (db : Db) (q : List ℚ) (k : Int) (row : EmbeddingRow) (v : List ℚ) (img : ImageRow)
    (hall : ∀ r ∈ db.embeddings, deserializeBlob r.blob ≠ none)
    (hrow : row ∈ db.embeddings)
    (hv : deserializeBlob row.blob = some v)
    (hlen : v.length ≠ q.length)
    (hk : (db.embeddings.length : Int) ≤ k)
    (himg : repoGetImageByID db row.imageID = some img) :
    ∃ imgs dists, repoSearchSimilarImages db q k = some (imgs, dists) ∧
      img ∈ imgs ∧ maxFloat32Sq ∈ dists := by
  have hcalc : calculateEuclideanDistance q v = maxFloat32Sq := by
    unfold calculateEuclideanDistance
    rw [if_pos (Ne.symm hlen)]
  have hc : (row.imageID, maxFloat32Sq) ∈ candList q db.embeddings := by
    have hmem := mem_candList_of q hrow hv
    rwa [hcalc] at hmem
  have hperm := goSortSlice_perm distLess (candList q db.embeddings)
  have hmemS : (row.imageID, maxFloat32Sq) ∈ goSortSlice distLess (candList q db.embeddings) :=
    hperm.mem_iff.mpr hc
  have hlenS : ((goSortSlice distLess (candList q db.embeddings)).length : Int) ≤ k := by
    rw [hperm.length_eq, candList_length_of_parse q db.embeddings hall]
    exact hk
  have hsearch := repoSearch_eq_of_parse db q k hall
  rw [truncateCandidates_of_le hlenS, joinCandidates_eq] at hsearch
  have hpair : ((img, maxFloat32Sq) : ImageRow × ℚ) ∈
      joinedPairs db (goSortSlice distLess (candList q db.embeddings)) := by
    unfold joinedPairs
    apply List.mem_filterMap.mpr
    refine ⟨(row.imageID, maxFloat32Sq), hmemS, ?pf⟩
    show (repoGetImageByID db row.imageID).map (fun im => (im, maxFloat32Sq)) =
      some (img, maxFloat32Sq)
    rw [himg]
    rfl
  exact ⟨_, _, hsearch, List.mem_map_of_mem Prod.fst hpair, List.mem_map_of_mem Prod.snd hpair⟩

theorem c1_mismatch_assigned_max_distance_witness :
    exImage 7 ∈ ((repoSearchSimilarImages dbMismatch [1, 2, 3, 4, 5] 10).getD ([], [])).1 ∧
    maxFloat32Sq ∈ ((repoSearchSimilarImages dbMismatch [1, 2, 3, 4, 5] 10).getD ([], [])).2 := by
  obtain ⟨imgs, dists, heq, h1, h2⟩ :=
    c1_mismatch_assigned_max_distance dbMismatch [1, 2, 3, 4, 5] 10
      (exEmbedding 107 7 [1, 2, 3]) [1, 2, 3] (exImage 7)
      (by decide) (by decide) rfl (by decide) (by decide) rfl
  rw [heq]
  exact ⟨h1, h2⟩

/-- C2 (code bug): with a corrupt second blob, the conversion loop leaves a
nil slot (`none`) exactly as its "skip" comment intends, but the distance
loop then dereferences that nil pointer: the whole search panics (`none`)
instead of skipping the corrupt entry and returning the remaining one. -/
theorem c2_corrupt_blob_crashes_search :
    parseEmbeddings dbCorrupt.embeddings = [some ⟨101, 1, [1]⟩, none] ∧
    repoSearchSimilarImages dbCorrupt [0] 10 = none := by
  exact ⟨by with_unfolding_all rfl, by with_unfolding_all rfl⟩

/-- C3 counterexample: image 5 exists with its file and records; the
record-deletion transaction fails (`txFails = true`); the delete returns an
error with both records still present, but the on-disk file is already
gone — the three artifacts were not left untouched. -/
theorem c3_delete_not_atomic_counterexample :
    (svcDeleteImage stDelete 5 true).1 = Except.error SvcErr.deleteRecords ∧
    (svcDeleteImage stDelete 5 true).2.db = stDelete.db ∧
    (svcDeleteImage stDelete 5 true).2.files = [] ∧
    stDelete.files = [((5, GoFmt.jpeg), [7, 7])] := by
  refine ⟨by with_unfolding_all rfl, by with_unfolding_all rfl, by with_unfolding_all rfl, rfl⟩

/-- C3 (amended): the delete removes the on-disk file first and then the
Embedding and Image records as one atomic transaction: on success all
three artifacts are gone; on any failure the two records are untouched,
but a file already removed before a failing record transaction is not
restored. -/
theorem c3_delete_records_atomic (st : SState) (id : Nat) (txFails : Bool) :
    ((svcDeleteImage st id txFails).1 = Except.ok () →
      (svcDeleteImage st id txFails).2.db.images = st.db.images.filter (fun i => ¬ i.id = id) ∧
      (svcDeleteImage st id txFails).2.db.embeddings =
        st.db.embeddings.filter (fun e => ¬ e.imageID = id) ∧
      ∀ img, repoGetImageByID st.db id = some img →
        fileExists (svcDeleteImage st id txFails).2 img.filePath = false) ∧
    ((svcDeleteImage st id txFails).1 ≠ Except.ok () →
      (svcDeleteImage st id txFails).2.db = st.db) := by
  cases hget : repoGetImageByID st.db id with
  | none =>
    have hval : svcDeleteImage st id txFails = (.error .notFound, st) := by
      unfold svcDeleteImage
      rw [hget]
    rw [hval]
    exact ⟨fun h => absurd h (by simp), fun _ => rfl⟩
  | some img =>
    cases hfe : fileExists st img.filePath with
    | false =>
      have hval : svcDeleteImage st id txFails = (.error .removeFailed, st) := by
        unfold svcDeleteImage
        rw [hget]
        dsimp only
        rw [hfe]
        simp
      rw [hval]
      exact ⟨fun h => absurd h (by simp), fun _ => rfl⟩
    | true =>
      cases txFails with
      | true =>
        have hval : svcDeleteImage st id true =
            (.error .deleteRecords, removeFileQuiet st img.filePath) := by
          unfold svcDeleteImage
          rw [hget]
          dsimp only
          rw [hfe]
          simp [repoDeleteImage]
        rw [hval]
        exact ⟨fun h => absurd h (by simp), fun _ => rfl⟩
      | false =>
        have hval : svcDeleteImage st id false =
            (.ok (), ⟨⟨st.db.images.filter (fun i => ¬ i.id = id),
                       st.db.embeddings.filter (fun e => ¬ e.imageID = id)⟩,
                      (removeFileQuiet st img.filePath).files⟩) := by
          unfold svcDeleteImage
          rw [hget]
          dsimp only
          rw [hfe]
          simp [repoDeleteImage, removeFileQuiet]
        rw [hval]
        refine ⟨fun _ => ⟨rfl, rfl, ?files⟩, fun h => absurd rfl h⟩
        case files =>
          intro img2 hget2
          injection hget2 with h3
          rw [← h3]
          exact fileExists_removeFileQuiet st img.filePath

/-- C4 (code bug): when the encoder fails after `os.Create` has already
created the artifact file, `UploadImage` returns the error without
removing the file: a zero-byte artifact is left on disk, although the
pre-ingest store had none. -/
theorem c4_encode_failure_leaves_file :
    stEmpty.files = [] ∧
    (svcUploadImage collabEncodeFail envNoFaults stEmpty [0] 5).1 =
      Except.error SvcErr.encodeFailed ∧
    (svcUploadImage collabEncodeFail envNoFaults stEmpty [0] 5).2.files =
      [((7, GoFmt.jpeg), [])] := by
  refine ⟨rfl, by with_unfolding_all rfl, by with_unfolding_all rfl⟩

/-- C5 (code bug): thirteen embeddings stored in insertion order
`0, 1, …, 12`, where entries 0 and 1 tie at the smallest-but-two distance;
`sort.Slice` (pdqsort) partitions (13 exceeds its insertion-sort
threshold) and returns the tied pair as `…, 1, 0, …` — the reverse of
their stored insertion order, so the sort is not stable. -/
theorem c5_sort_not_stable_thirteen_entries :
    dbThirteen.embeddings.map EmbeddingRow.imageID = List.range 13 ∧
    calculateEuclideanDistance [0] [tieVals.getD 0 0] =
      calculateEuclideanDistance [0] [tieVals.getD 1 0] ∧
    repoSearchSimilarImages dbThirteen [0] 13 =
      some ([2, 3, 4, 5, 6, 1, 0, 7, 8, 9, 10, 11, 12].map exImage,
        [0, 1, 4, 9, 16, 25, 25, 36, 49, 64, 81, 100, 121]) := by
  refine ⟨by with_unfolding_all rfl, by with_unfolding_all rfl, by with_unfolding_all rfl⟩

/-- C6: the spec §8 ordering scenario: query `[0,0,0]` over
A = `[0,0,0]`, B = `[1,0,0]`, C = `[10,10,10]` with `k = 2` returns
exactly A then B and truncates C away; the reported values represent
Euclidean distances 0 and 1 (`euclideanDistR` is the metric itself). -/
theorem c6_search_ordering_scenario :
    repoSearchSimilarImages dbOrdering [0, 0, 0] 2 = some ([exImage 1, exImage 2], [0, 1]) ∧
    euclideanDistR [0, 0, 0] [0, 0, 0] = 0 ∧
    euclideanDistR [0, 0, 0] [1, 0, 0] = 1 ∧
    dbOrdering.embeddings.length = 3 := by
  refine ⟨by with_unfolding_all rfl, ?e0, ?e1, rfl⟩
  case e0 =>
    unfold euclideanDistR
    rw [if_neg (by simp)]
    have hsum : ((([(0 : ℚ), 0, 0].zip [(0 : ℚ), 0, 0]).map
        (fun p => (p.1 - p.2) * (p.1 - p.2))).sum : ℚ) = 0 := by norm_num
    rw [hsum]
    simp
  case e1 =>
    unfold euclideanDistR
    rw [if_neg (by simp)]
    have hsum : ((([(0 : ℚ), 0, 0].zip [(1 : ℚ), 0, 0]).map
        (fun p => (p.1 - p.2) * (p.1 - p.2))).sum : ℚ) = 1 := by norm_num
    rw [hsum]
    simp

/-- C7 counterexample: with 101 stored images, page 1 and pageSize 150,
clamping to the maximum 100 would return 100 records; the code instead
resets the out-of-range pageSize to the default 10 and returns 10. -/
theorem c7_pagesize_reset_not_clamped_counterexample :
    (svcListImages stHundredOne 1 150).1.length = 10 ∧
    ¬ (svcListImages stHundredOne 1 150).1.length = 100 ∧
    stHundredOne.db.images.length = 101 := by
  have h10 : (svcListImages stHundredOne 1 150).1.length = 10 := by with_unfolding_all rfl
  refine ⟨h10, ?ne, by rfl⟩
  rw [h10]
  decide

/-- C7 (amended): `listImages` clamps `page` to at least 1, replaces a
`pageSize` outside `[1, 100]` by the default 10 (it does not clamp to the
boundary), returns the records starting at offset
`(page-1) * pageSize` of the effective values, and returns the true total
count of all Image records independent of `page` and `pageSize`. -/
theorem c7_list_pagination (st : SState) (page pageSize : Int) :
    (svcListImages st page pageSize).1 =
      (st.db.images.drop ((max page 1 - 1) *
        (if pageSize < 1 ∨ pageSize > 100 then 10 else pageSize)).toNat).take
        (if pageSize < 1 ∨ pageSize > 100 then 10 else pageSize).toNat ∧
    (svcListImages st page pageSize).2 = st.db.images.length := by
  unfold svcListImages repoListImages
  dsimp only
  have hmax : (if page < 1 then (1 : Int) else page) = max page 1 := by
    split <;> omega
  rw [hmax]
  exact ⟨rfl, rfl⟩

/-- C8 counterexample: a collection whose only stored vector has length 2
searched with a length-3 query returns that entry at the sentinel maximal
distance — not the empty list the claim requires when no stored vector is
comparable. -/
theorem c8_incomparable_not_empty_counterexample :
    repoSearchSimilarImages dbMismatchPair [9, 9, 9] 10 =
      some ([exImage 4], [maxFloat32Sq]) ∧
    ¬ repoSearchSimilarImages dbMismatchPair [9, 9, 9] 10 = some ([], []) := by
  have h := (by with_unfolding_all rfl :
    repoSearchSimilarImages dbMismatchPair [9, 9, 9] 10 = some ([exImage 4], [maxFloat32Sq]))
  refine ⟨h, ?ne⟩
  rw [h]
  simp

/-- C8 (amended): a search over zero stored embeddings returns the empty
result and no error, for every query and limit; a search in which no
stored vector is comparable to the query also returns no error, but
instead of an empty list it returns entries all carrying the sentinel
maximal distance. -/
theorem c8_empty_and_incomparable_behavior :
    (∀ (imgs : List ImageRow) (q : List ℚ) (k : Int),
      repoSearchSimilarImages ⟨imgs, []⟩ q k = some ([], [])) ∧
    (∀ (db : Db) (q : List ℚ) (k : Int),
      (∀ r ∈ db.embeddings, ∃ v, deserializeBlob r.blob = some v ∧ v.length ≠ q.length) →
      ∃ res, repoSearchSimilarImages db q k = some res ∧
        res.2.all (fun d => d == maxFloat32Sq) = true) := by
  constructor
  · intro imgs q k
    have hp : ∀ r ∈ ([] : List EmbeddingRow), deserializeBlob r.blob ≠ none := by
      intro r hr
      cases hr
    have h := repoSearch_eq_of_parse ⟨imgs, []⟩ q k hp
    rw [h]
    have ht : truncateCandidates k (goSortSlice distLess (candList q ([] : List EmbeddingRow))) = [] := by
      show truncateCandidates k ([] : List (Nat × ℚ)) = []
      unfold truncateCandidates
      split <;> simp
    rw [ht]
    rfl
  · intro db q k h
    have hall : ∀ r ∈ db.embeddings, deserializeBlob r.blob ≠ none := by
      intro r hr
      obtain ⟨v, hv, _⟩ := h r hr
      rw [hv]
      simp
    have hs := repoSearch_eq_of_parse db q k hall
    refine ⟨_, hs, ?hd⟩
    rw [List.all_eq_true]
    intro d hd
    rw [beq_iff_eq]
    rw [joinCandidates_eq] at hd
    dsimp only at hd
    obtain ⟨p, hp, hps⟩ := List.mem_map.mp hd
    unfold joinedPairs at hp
    obtain ⟨cand, hcand, hfc⟩ := List.mem_filterMap.mp hp
    have hc2 : cand ∈ candList q db.embeddings :=
      (goSortSlice_perm distLess _).mem_iff.mp (truncateCandidates_subset _ _ _ hcand)
    obtain ⟨r, hr, v, hv, hcd⟩ := of_mem_candList hc2
    obtain ⟨v2, hv2, hlen2⟩ := h r hr
    rw [hv] at hv2
    injection hv2 with hv3
    cases hgi : repoGetImageByID db cand.1 with
    | none =>
      rw [hgi] at hfc
      exact absurd hfc (by simp)
    | some im2 =>
      rw [hgi] at hfc
      simp only [Option.map_some', Option.some.injEq] at hfc
      have hps2 : cand.2 = d := by
        rw [← hps, ← hfc]
      rw [← hps2, hcd]
      show calculateEuclideanDistance q v = maxFloat32Sq
      unfold calculateEuclideanDistance
      rw [if_pos (Ne.symm (hv3 ▸ hlen2))]

theorem c8_empty_and_incomparable_behavior_witness :
    repoSearchSimilarImages ⟨[exImage 9], []⟩ [3] 7 = some ([], []) ∧
    ((repoSearchSimilarImages dbMismatchPair [1, 1, 1] 10).getD ([], [])).2.all
      (fun d => d == maxFloat32Sq) = true := by
  constructor
  · exact c8_empty_and_incomparable_behavior.1 [exImage 9] [3] 7
  · have hyp : ∀ r ∈ dbMismatchPair.embeddings,
        ∃ v, deserializeBlob r.blob = some v ∧ v.length ≠ ([1, 1, 1] : List ℚ).length := by
      intro r hr
      have hsing : dbMismatchPair.embeddings = [exEmbedding 104 4 [2, 2]] := rfl
      rw [hsing] at hr
      have hreq := List.mem_singleton.mp hr
      rw [hreq]
      exact ⟨[2, 2], rfl, by decide⟩
    obtain ⟨res, heq, hall⟩ :=
      c8_empty_and_incomparable_behavior.2 dbMismatchPair [1, 1, 1] 10 hyp
    rw [heq]
    exact hall

/-- C9: a successful upload persists an Image record whose width and
height are those of the resized image, whose byte size is the length of
the artifact actually written to disk (the encoder's output), and fetching
by the returned identity yields exactly that record — not the original
upload's dimensions. -/
theorem c9_roundtrip_resized_dimensions
    (c : Collaborators) (env : UploadEnv) (st : SState) (bytes : List Nat) (name : Nat)
    (img : GoImage) (fmt : GoFmt) (rec : ImageRow) (stOut : SState)
    (hdec : c.decode bytes = some (img, fmt))
    (hfresh : repoGetImageByID st.db env.freshImageId = none)
    (hok : svcUploadImage c env st bytes name = (Except.ok rec, stOut)) :
    svcGetImage stOut rec.id = some rec ∧
    rec.width = (c.resizeTo800 img).width ∧
    rec.height = (c.resizeTo800 img).height ∧
    rec.size = (fileContent stOut rec.filePath).length ∧
    encodeStep c fmt (c.resizeTo800 img) = EncOutcome.wrote (fileContent stOut rec.filePath) ∧
    ((c.resizeTo800 img).width ≠ img.width → rec.width ≠ img.width) := by
  unfold svcUploadImage at hok
  by_cases h1 : env.copyFails = true
  · rw [if_pos h1] at hok
    exact absurd (congrArg Prod.fst hok) (by simp)
  rw [if_neg h1] at hok
  by_cases h2 : env.seekFails = true
  · rw [if_pos h2] at hok
    exact absurd (congrArg Prod.fst hok) (by simp)
  rw [if_neg h2] at hok
  rw [hdec] at hok
  dsimp only at hok
  by_cases h3 : ¬ (fmt = GoFmt.jpeg ∨ fmt = GoFmt.png)
  · rw [if_pos h3] at hok
    exact absurd (congrArg Prod.fst hok) (by simp)
  rw [if_neg h3] at hok
  by_cases h4 : env.createFails = true
  · rw [if_pos h4] at hok
    exact absurd (congrArg Prod.fst hok) (by simp)
  rw [if_neg h4] at hok
  cases henc : encodeStep c fmt (c.resizeTo800 img) with
  | failed =>
    rw [henc] at hok
    exact absurd (congrArg Prod.fst hok) (by simp)
  | skipped =>
    exfalso
    rcases not_not.mp h3 with hf | hf
    · rw [hf] at henc
      cases hj : c.encodeJpeg (c.resizeTo800 img) <;> simp [encodeStep, hj] at henc
    · rw [hf] at henc
      cases hj : c.encodePng (c.resizeTo800 img) <;> simp [encodeStep, hj] at henc
  | wrote bs =>
    rw [henc] at hok
    dsimp only at hok
    unfold svcUploadFinish at hok
    dsimp only at hok
    by_cases h5 : env.statFails = true
    · rw [if_pos h5] at hok
      exact absurd (congrArg Prod.fst hok) (by simp)
    rw [if_neg h5] at hok
    by_cases h6 : env.createImageFails = true
    · rw [if_pos h6] at hok
      exact absurd (congrArg Prod.fst hok) (by simp)
    rw [if_neg h6] at hok
    by_cases h7 : env.createEmbeddingFails = true
    · rw [if_pos h7] at hok
      exact absurd (congrArg Prod.fst hok) (by simp)
    rw [if_neg h7] at hok
    have hfst := congrArg Prod.fst hok
    have hsnd := congrArg Prod.snd hok
    dsimp only at hfst hsnd
    injection hfst with hrec
    subst hrec
    subst hsnd
    refine ⟨?g1, rfl, rfl, rfl, ?g5, fun hne => hne⟩
    case g1 =>
      unfold svcGetImage repoGetImageByID
      show (st.db.images ++
        [({ id := env.freshImageId, fileName := name, filePath := (env.freshPathId, fmt),
            extension := fmt,
            width := (c.resizeTo800 img).width, height := (c.resizeTo800 img).height,
            size := (fileContent (writeFile (writeFile st (env.freshPathId, fmt) [])
              (env.freshPathId, fmt) bs) (env.freshPathId, fmt)).length,
            createdAt := env.now, updatedAt := env.now } : ImageRow)]).find?
          (fun r => r.id = env.freshImageId) = _
      rw [List.find?_append]
      have h0 : st.db.images.find? (fun r => r.id = env.freshImageId) = none := hfresh
      rw [h0]
      simp
    case g5 =>
      have hfc : fileContent
          (writeFile (writeFile st (env.freshPathId, fmt) []) (env.freshPathId, fmt) bs)
          (env.freshPathId, fmt) = bs :=
        fileContent_writeFile (writeFile st (env.freshPathId, fmt) []) (env.freshPathId, fmt) bs
      exact congrArg EncOutcome.wrote hfc.symm

theorem c9_roundtrip_resized_dimensions_witness :
    svcGetImage stRoundtrip recRoundtrip.id = some recRoundtrip ∧
    recRoundtrip.width = imgTwoByOne.width ∧
    recRoundtrip.height = imgTwoByOne.height ∧
    recRoundtrip.size = (fileContent stRoundtrip recRoundtrip.filePath).length ∧
    recRoundtrip.width ≠ imgFourByThree.width := by
  have h := c9_roundtrip_resized_dimensions collabRoundtrip envNoFaults stEmpty [0] 5
    imgFourByThree GoFmt.png recRoundtrip stRoundtrip rfl rfl (by with_unfolding_all rfl)
  exact ⟨h.1, h.2.1, h.2.2.1, h.2.2.2.1, h.2.2.2.2.2 (by decide)⟩

theorem of_mem_joinedPairs {db : Db} {cands : List (Nat × ℚ)} {p : ImageRow × ℚ}
    (hp : p ∈ joinedPairs db cands) :
    ∃ d ∈ cands, repoGetImageByID db d.1 = some p.1 ∧ p.2 = d.2 := by
  unfold joinedPairs at hp
  obtain ⟨d, hd, hfd⟩ := List.mem_filterMap.mp hp
  cases hg : repoGetImageByID db d.1 with
  | none =>
    rw [hg] at hfd
    exact absurd hfd (by simp)
  | some im =>
    rw [hg] at hfd
    simp only [Option.map_some', Option.some.injEq] at hfd
    refine ⟨d, hd, ?g, ?s⟩
    case g => rw [hg, ← hfd]
    case s => rw [← hfd]

/-- C10: a successful service-level similarity search returns images and
distances of equal length, and the distance at each index is the one
`calculateEuclideanDistance` computed between the query embedding and the
stored vector of the embedding row whose image record is returned at that
same index — the pairing the HTTP handler indexes into. -/
theorem c10_images_distances_aligned
    (c : Collaborators) (cf sf : Bool) (st : SState) (bytes : List Nat)
    (imgs : List ImageRow) (dists : List ℚ)
    (h : svcSearchImagesByImage c cf sf st bytes = SearchOut.ok imgs dists) :
    imgs.length = dists.length ∧
    ∀ i (hi : i < imgs.length) (hd : i < dists.length),
      ∃ r ∈ st.db.embeddings, ∃ v, deserializeBlob r.blob = some v ∧
        ∃ qi f, c.decode bytes = some (qi, f) ∧
          repoGetImageByID st.db r.imageID = some (imgs[i]) ∧
          dists[i] = calculateEuclideanDistance (generateEmbedding (c.resizeTo800 qi)) v := by
  unfold svcSearchImagesByImage at h
  cases cf with
  | true => exact absurd h (by simp)
  | false =>
  cases sf with
  | true => exact absurd h (by simp)
  | false =>
  simp only [Bool.false_eq_true, if_false] at h
  cases hdec : c.decode bytes with
  | none =>
    rw [hdec] at h
    exact absurd h (by simp)
  | some p =>
    obtain ⟨qi, f⟩ := p
    rw [hdec] at h
    dsimp only at h
    cases hsr : repoSearchSimilarImages st.db (generateEmbedding (c.resizeTo800 qi)) 10 with
    | none =>
      rw [hsr] at h
      exact absurd h (by simp)
    | some res =>
      obtain ⟨is, ds⟩ := res
      rw [hsr] at h
      dsimp only at h
      injection h with h1 h2
      subst h1
      subst h2
      unfold repoSearchSimilarImages at hsr
      cases hsc : searchCandidates (generateEmbedding (c.resizeTo800 qi))
          (parseEmbeddings st.db.embeddings) with
      | none =>
        rw [hsc] at hsr
        exact absurd hsr (by simp)
      | some cands =>
        rw [hsc] at hsr
        simp only [Option.map_some', Option.some.injEq] at hsr
        have hcl : cands = candList (generateEmbedding (c.resizeTo800 qi)) st.db.embeddings :=
          searchCandidates_some_imp _ _ _ hsc
        subst hcl
        rw [joinCandidates_eq] at hsr
        have hI := congrArg Prod.fst hsr
        have hD := congrArg Prod.snd hsr
        dsimp only at hI hD
        subst hI
        subst hD
        constructor
        · simp
        · intro i hi hd
          have hip : i < (joinedPairs st.db (truncateCandidates 10 (goSortSlice distLess
              (candList (generateEmbedding (c.resizeTo800 qi)) st.db.embeddings)))).length := by
            simpa using hi
          have hpmem : (joinedPairs st.db (truncateCandidates 10 (goSortSlice distLess
              (candList (generateEmbedding (c.resizeTo800 qi)) st.db.embeddings))))[i] ∈
              joinedPairs st.db (truncateCandidates 10 (goSortSlice distLess
              (candList (generateEmbedding (c.resizeTo800 qi)) st.db.embeddings))) :=
            List.getElem_mem hip
          obtain ⟨cand, hcand, hg, hs⟩ := of_mem_joinedPairs hpmem
          have hcmem : cand ∈ candList (generateEmbedding (c.resizeTo800 qi)) st.db.embeddings :=
            (goSortSlice_perm distLess _).mem_iff.mp (truncateCandidates_subset _ _ _ hcand)
          obtain ⟨r, hr, v, hv, hcd⟩ := of_mem_candList hcmem
          have hc1 : cand.1 = r.imageID := by rw [hcd]
          refine ⟨r, hr, v, hv, qi, f, rfl, ?hg2, ?hd2⟩
          case hg2 =>
            rw [List.getElem_map]
            rw [← hc1]
            exact hg
          case hd2 =>
            rw [List.getElem_map]
            rw [hs, hcd]

theorem c10_images_distances_aligned_witness :
    ([exImage 1] : List ImageRow).length = ([(0 : ℚ)] : List ℚ).length ∧
    svcSearchImagesByImage collabQueryZero false false ⟨dbSingleZero, []⟩ [0] =
      SearchOut.ok [exImage 1] [0] := by
  have h := c10_images_distances_aligned collabQueryZero false false ⟨dbSingleZero, []⟩ [0]
    [exImage 1] [0] (by with_unfolding_all rfl)
  exact ⟨h.1, by with_unfolding_all rfl⟩

theorem c3_delete_records_atomic_witness :
    (svcDeleteImage stDelete 5 false).2.db.images = [] ∧
    (svcDeleteImage stDelete 5 false).2.db.embeddings = [] ∧
    fileExists (svcDeleteImage stDelete 5 false).2 (exImage 5).filePath = false := by
  obtain ⟨h1, h2, h3⟩ :=
    (c3_delete_records_atomic stDelete 5 false).1 (by with_unfolding_all rfl)
  refine ⟨?a, ?b, h3 (exImage 5) (by with_unfolding_all rfl)⟩
  case a =>
    rw [h1]
    with_unfolding_all rfl
  case b =>
    rw [h2]
    with_unfolding_all rfl
